import Mathlib

/-!
Shallow embedding of the annotation evaluator (`src/app/Evaluator.py`) of the
thematic-coder-lm repository, together with proofs of the specified properties.

Modelling conventions:
* JSON objects become Lean structures; optional JSON fields become `Option`.
* Python `dict`s that are only iterated become association lists (insertion
  order preserved); the ground-truth lookup dict built by a comprehension is
  modelled by `gt_lookup`, which realises its last-write-wins semantics.
* Python `float` confidences and metric values are modelled as rationals `ℚ`
  (every threshold and every metric the spec mentions is exactly
  representable; no claim depends on floating-point rounding).
* Python `set`s of `(theme, code)` pairs become `Finset (String × String)`.
* The three `defaultdict` accumulators become total functions defaulting to
  zero counts, paired with the `Finset` of keys that were actually touched
  (a `defaultdict` materialises exactly the touched keys).
* `print` warnings are side effects with no influence on any returned value;
  they are not modelled.  In Lean all functions are total, so the absence of
  raised exceptions (division by zero, empty input) is expressed by proving
  the stated values of the total functions.
-/

/-- One annotation detail: the JSON object `{section, confidence, annotator}`.
Only `confidence` is ever read by the evaluator (`details.get("confidence", 1.0)`);
`sectionText` models the JSON field named `section` (a Lean keyword). -/
structure Detail where
  sectionText : Option String := none
  confidence : Option ℚ := none
  annotator : Option String := none
deriving DecidableEq, Repr

/-- A code map: code name → detail (Python dict, modelled as an association list). -/
abbrev CodeMap := List (String × Detail)

/-- A theme map: theme name → code map. -/
abbrev ThemeMap := List (String × CodeMap)

/-- One survey answer entry: `{id, text, annotations}`; the evaluator reads
`annotations` with `entry.get("annotations", {})`, hence `Option`. -/
structure Entry where
  id : Int
  text : String
  annotations : Option ThemeMap := none
deriving DecidableEq, Repr

/-- A whole annotation document: `{question, answers}`. -/
structure AnnotationSet where
  question : String
  answers : List Entry
deriving DecidableEq, Repr

/-- All `(theme, code, detail)` triples of a theme map, in iteration order:
the two nested `for` loops of `Evaluator._collect_codes`. -/
def tagsOf (annotations : ThemeMap) : List (String × String × Detail) :=
  annotations.flatMap (fun tc => tc.2.map (fun cd => (tc.1, cd.1, cd.2)))

/-- The confidence used for thresholding: `details.get("confidence", 1.0)`. -/
def effectiveConfidence (d : Detail) : ℚ :=
  d.confidence.getD 1

/-- `Evaluator._collect_codes`: flatten annotations into the set of
`(theme, code)` pairs whose confidence meets the threshold (inclusive). -/
def collect_codes (annotations : ThemeMap) (min_confidence : ℚ) : Finset (String × String) :=
  (((tagsOf annotations).filter
      (fun t => min_confidence ≤ effectiveConfidence t.2.2)).map
    (fun t => (t.1, t.2.1))).toFinset

/-- The ground-truth lookup `gt_map = {entry["id"]: entry for entry in gt["answers"]}`
followed by `gt_map.get(auto_id)`: when several entries share an identifier the
later dict write wins, so lookup prefers the match occurring later in the list. -/
def gt_lookup : List Entry → Int → Option Entry
  | [], _ => none
  | e :: rest, i =>
    match gt_lookup rest i with
    | some g => some g
    | none => if e.id = i then some e else none

/-- The loop body of `Evaluator._align_entries` over the auto answers:
returns the aligned `(auto, gt)` pairs in auto order together with the
`missing_count` of skipped auto entries. -/
def align_answers (gtAnswers : List Entry) : List Entry → List (Entry × Entry) × Nat
  | [] => ([], 0)
  | a :: rest =>
    match gt_lookup gtAnswers a.id with
    | some g => ((a, g) :: (align_answers gtAnswers rest).1, (align_answers gtAnswers rest).2)
    | none => ((align_answers gtAnswers rest).1, (align_answers gtAnswers rest).2 + 1)

/-- `Evaluator._align_entries`: align the auto document against the ground
truth document (question/text mismatches only print warnings and change
nothing in the result). -/
def align_entries (auto gt : AnnotationSet) : List (Entry × Entry) × Nat :=
  align_answers gt.answers auto.answers

/-- Whitespace trimming at both ends, Python `str.strip()` (modelled on the
character list so it is kernel-computable). -/
def stripText (s : String) : String :=
  ⟨((s.data.dropWhile Char.isWhitespace).reverse.dropWhile Char.isWhitespace).reverse⟩

/-- The text-mismatch warning condition of `_align_entries`:
`auto_entry["text"].strip() != gt_entry["text"].strip()`. -/
def textMismatch (a g : Entry) : Prop :=
  stripText a.text ≠ stripText g.text

/-- TP/FP/FN counts of one accumulator bucket. -/
structure Counts where
  tp : Nat
  fp : Nat
  fn : Nat
deriving DecidableEq, Repr

/-- The zero bucket, the `defaultdict` default `{"tp": 0, "fp": 0, "fn": 0}`. -/
def Counts.zero : Counts := ⟨0, 0, 0⟩

/-- The CodeTag set of one entry at a threshold:
`self._collect_codes(entry.get("annotations", {}), min_confidence)`. -/
def entryCodes (e : Entry) (mc : ℚ) : Finset (String × String) :=
  collect_codes (e.annotations.getD []) mc

/-- Per-pair true positives: `auto_codes & gt_codes`. -/
def pairTPs (pr : Entry × Entry) (mc : ℚ) : Finset (String × String) :=
  entryCodes pr.1 mc ∩ entryCodes pr.2 mc

/-- Per-pair false positives: `auto_codes - gt_codes`. -/
def pairFPs (pr : Entry × Entry) (mc : ℚ) : Finset (String × String) :=
  entryCodes pr.1 mc \ entryCodes pr.2 mc

/-- Per-pair false negatives: `gt_codes - auto_codes`. -/
def pairFNs (pr : Entry × Entry) (mc : ℚ) : Finset (String × String) :=
  entryCodes pr.2 mc \ entryCodes pr.1 mc

/-- Accumulator state of the main loop of `evaluate_precision_recall`: the
three global counters and the two `defaultdict`s (modelled as the finset of
touched keys plus a total count function defaulting to zero). -/
structure EvalState where
  tp_global : Nat
  fp_global : Nat
  fn_global : Nat
  theme_keys : Finset String
  per_theme : String → Counts
  code_keys : Finset (String × String)
  per_code : String × String → Counts

/-- Initial accumulator state. -/
def initState : EvalState :=
  ⟨0, 0, 0, ∅, fun _ => Counts.zero, ∅, fun _ => Counts.zero⟩

/-- One iteration of the loop `for auto_entry, gt_entry in self.aligned_entries`:
add the pair's TP/FP/FN cardinalities to the global counters and bump the
per-theme and per-code buckets once for each tag in the respective sets. -/
def stepPair (mc : ℚ) (st : EvalState) (pr : Entry × Entry) : EvalState :=
  let tps := pairTPs pr mc
  let fps := pairFPs pr mc
  let fns := pairFNs pr mc
  { tp_global := st.tp_global + tps.card
    fp_global := st.fp_global + fps.card
    fn_global := st.fn_global + fns.card
    theme_keys := st.theme_keys ∪ (tps ∪ fps ∪ fns).image Prod.fst
    per_theme := fun t =>
      ⟨(st.per_theme t).tp + (tps.filter (fun p => p.1 = t)).card,
       (st.per_theme t).fp + (fps.filter (fun p => p.1 = t)).card,
       (st.per_theme t).fn + (fns.filter (fun p => p.1 = t)).card⟩
    code_keys := st.code_keys ∪ (tps ∪ fps ∪ fns)
    per_code := fun p =>
      ⟨(st.per_code p).tp + (if p ∈ tps then 1 else 0),
       (st.per_code p).fp + (if p ∈ fps then 1 else 0),
       (st.per_code p).fn + (if p ∈ fns then 1 else 0)⟩ }

/-- The whole accumulation loop over the aligned pairs. -/
def runPairs (mc : ℚ) (pairs : List (Entry × Entry)) : EvalState :=
  pairs.foldl (stepPair mc) initState

/-- The nested helper `safe_div`: `num / denom if denom > 0 else 0.0`. -/
def safe_div (num denom : ℚ) : ℚ :=
  if denom > 0 then num / denom else 0

/-- Derived metrics of one bucket. -/
structure Metrics where
  precision : ℚ
  recallScore : ℚ
  f1 : ℚ
deriving DecidableEq, Repr

/-- Metric derivation applied to every bucket of the report:
`safe_div(tp, tp+fp)`, `safe_div(tp, tp+fn)`, `safe_div(2*tp, 2*tp+fp+fn)`. -/
def metricsOf (c : Counts) : Metrics :=
  { precision := safe_div (c.tp : ℚ) ((c.tp : ℚ) + (c.fp : ℚ))
    recallScore := safe_div (c.tp : ℚ) ((c.tp : ℚ) + (c.fn : ℚ))
    f1 := safe_div (2 * (c.tp : ℚ)) (2 * (c.tp : ℚ) + (c.fp : ℚ) + (c.fn : ℚ)) }

/-- Serialization of a per-code key: `key = f"{theme}|{code}"`. -/
def serializeCodeKey (p : String × String) : String :=
  p.1 ++ "|" ++ p.2

/-- The returned report: global metrics with the evaluated-entry count, the
per-theme mapping and the per-code mapping (whose JSON keys are the
serializations of the touched `(theme, code)` keys). -/
structure Report where
  globalMetrics : Metrics
  evaluated_entries : Nat
  theme_keys : Finset String
  per_theme : String → Metrics
  code_keys : Finset (String × String)
  per_code : String × String → Metrics
  per_code_serialized_keys : Finset String

/-- `Evaluator.evaluate_precision_recall`: align, accumulate over the aligned
pairs, and derive metrics for the global, per-theme and per-code buckets. -/
def evaluate_precision_recall (auto gt : AnnotationSet) (min_confidence : ℚ) : Report :=
  let aligned := (align_entries auto gt).1
  let st := runPairs min_confidence aligned
  { globalMetrics := metricsOf ⟨st.tp_global, st.fp_global, st.fn_global⟩
    evaluated_entries := aligned.length
    theme_keys := st.theme_keys
    per_theme := fun t => metricsOf (st.per_theme t)
    code_keys := st.code_keys
    per_code := fun p => metricsOf (st.per_code p)
    per_code_serialized_keys := st.code_keys.image serializeCodeKey }

/-- Auto entry of the C1 counterexample: code `c` of theme `A` at confidence 1. -/
def ceAutoEntry : Entry :=
  { id := 1, text := "r", annotations := some [("A", [("c", { confidence := some 1 })])] }

/-- Ground-truth entry of the C1 counterexample: the same code at confidence 0. -/
def ceGtEntry : Entry :=
  { id := 1, text := "r", annotations := some [("A", [("c", { confidence := some 0 })])] }

/-- Auto document of the C1 counterexample. -/
def ceAuto : AnnotationSet := { question := "q", answers := [ceAutoEntry] }

/-- Ground-truth document of the C1 counterexample. -/
def ceGt : AnnotationSet := { question := "q", answers := [ceGtEntry] }

/-- Auto entry of the C3 witness whose trimmed text mismatches the GT text. -/
def c3AutoA : Entry := { id := 1, text := "y", annotations := none }

/-- Auto entry of the C3 witness whose identifier is absent from the GT. -/
def c3AutoB : Entry := { id := 99, text := "z", annotations := none }

/-- Ground-truth entry of the C3 witness. -/
def c3GtA : Entry := { id := 1, text := "x", annotations := none }

/-- Auto document of the C3 witness. -/
def c3Auto : AnnotationSet := { question := "q", answers := [c3AutoA, c3AutoB] }

/-- Ground-truth document of the C3 witness. -/
def c3Gt : AnnotationSet := { question := "q", answers := [c3GtA] }

/-- Loop invariant: untouched themes hold zero counts and each global counter
is the sum of the per-theme counters over the touched themes. -/
def themePartitionInv (st : EvalState) : Prop :=
  (∀ t, t ∉ st.theme_keys → st.per_theme t = Counts.zero) ∧
  st.tp_global = ∑ t ∈ st.theme_keys, (st.per_theme t).tp ∧
  st.fp_global = ∑ t ∈ st.theme_keys, (st.per_theme t).fp ∧
  st.fn_global = ∑ t ∈ st.theme_keys, (st.per_theme t).fn

/-- Entry whose annotations produce the colliding keys `("a|b", "c")` and
`("a", "b|c")`. -/
def c2Entry : Entry :=
  { id := 1, text := "r",
    annotations := some [("a|b", [("c", { confidence := some 1 })]),
                         ("a", [("b|c", { confidence := some 1 })])] }

/-- Document holding `c2Entry`. -/
def c2Set : AnnotationSet := { question := "q", answers := [c2Entry] }

/-- Entry with two separator-free per-code keys for the C2 witness. -/
def c2wEntry : Entry :=
  { id := 1, text := "r",
    annotations := some [("A", [("c", { confidence := some 1 }),
                                ("d", { confidence := some 1 })])] }

/-- Document holding `c2wEntry`. -/
def c2wSet : AnnotationSet := { question := "q", answers := [c2wEntry] }

/-! ### Characterisation of code-tag extraction -/

/-- Membership in `collect_codes`: a pair is extracted exactly when some
detail of that pair meets the threshold. -/
theorem mem_collect_codes {a : ThemeMap} {mc : ℚ} {p : String × String} :
    p ∈ collect_codes a mc ↔
      ∃ d : Detail, (p.1, p.2, d) ∈ tagsOf a ∧ mc ≤ effectiveConfidence d := by
  constructor
  · intro h
    simp only [collect_codes, List.mem_toFinset, List.mem_map, List.mem_filter,
      decide_eq_true_eq] at h
    obtain ⟨⟨t1, t2, d⟩, ⟨ht, hc⟩, hp⟩ := h
    cases hp
    exact ⟨d, ht, hc⟩
  · rintro ⟨d, ht, hc⟩
    simp only [collect_codes, List.mem_toFinset, List.mem_map, List.mem_filter,
      decide_eq_true_eq]
    exact ⟨(p.1, p.2, d), ⟨ht, hc⟩, rfl⟩

/-- Raising the threshold shrinks the extracted set. -/
theorem collect_codes_anti {a : ThemeMap} {mc mc' : ℚ} (h : mc ≤ mc') :
    collect_codes a mc' ⊆ collect_codes a mc := by
  intro p hp
  rw [mem_collect_codes] at hp ⊢
  obtain ⟨d, ht, hc⟩ := hp
  exact ⟨d, ht, le_trans h hc⟩

/-- C4: code-tag extraction returns exactly the pairs with some detail whose
confidence (defaulting to 1 when absent) meets the threshold; a detail
lacking a confidence field is included whenever the threshold is ≤ 1; and
when every effective confidence is ≤ 1 (as the data model requires), any
threshold > 1 extracts the empty set. -/
theorem C4_collect_codes_exact (a : ThemeMap) (mc : ℚ) :
    (∀ p : String × String, p ∈ collect_codes a mc ↔
        ∃ d : Detail, (p.1, p.2, d) ∈ tagsOf a ∧ mc ≤ effectiveConfidence d) ∧
    (∀ t c d, (t, c, d) ∈ tagsOf a → d.confidence = none → mc ≤ 1 →
        (t, c) ∈ collect_codes a mc) ∧
    ((∀ t c d, (t, c, d) ∈ tagsOf a → effectiveConfidence d ≤ 1) → 1 < mc →
        collect_codes a mc = ∅) := by
  refine ⟨fun p => mem_collect_codes, ?_, ?_⟩
  · intro t c d ht hnone hle
    rw [mem_collect_codes]
    refine ⟨d, ht, ?_⟩
    simp [effectiveConfidence, hnone, hle]
  · intro hbound hgt
    rw [Finset.eq_empty_iff_forall_not_mem]
    intro p hp
    rw [mem_collect_codes] at hp
    obtain ⟨d, ht, hc⟩ := hp
    exact absurd (le_trans hc (hbound p.1 p.2 d ht)) (not_le.mpr hgt)

/-- Concrete instantiation of `C4_collect_codes_exact`: a confidence-less
detail is extracted at threshold 1 and everything is dropped at threshold 2. -/
theorem C4_collect_codes_exact_witness :
    ("A", "c1") ∈ collect_codes [("A", [("c1", ⟨none, none, none⟩)])] 1 ∧
    collect_codes [("A", [("c1", ⟨none, none, none⟩)])] 2 = ∅ :=
  ⟨(C4_collect_codes_exact [("A", [("c1", ⟨none, none, none⟩)])] 1).2.1
      "A" "c1" ⟨none, none, none⟩ (by decide) rfl (by decide),
    (C4_collect_codes_exact [("A", [("c1", ⟨none, none, none⟩)])] 2).2.2
      (by
        intro t c d ht
        have ht' : (t, c, d) = ("A", "c1", (⟨none, none, none⟩ : Detail)) :=
          List.mem_singleton.mp ht
        have hd : d = ⟨none, none, none⟩ := congrArg (fun x => x.2.2) ht'
        rw [hd]
        decide)
      (by decide)⟩

/-! ### C1: threshold monotonicity of the per-pair counts -/





/-- C1 counterexample: raising the threshold from 0 to 1 on this aligned pair
raises its FP count from 0 to 1 (the tag leaves the GT set but stays in the
auto set, moving from TP to FP), so the per-pair FP count is not monotone. -/
theorem C1_counterexample :
    (align_entries ceAuto ceGt).1 = [(ceAutoEntry, ceGtEntry)] ∧
    (0 : ℚ) ≤ 1 ∧
    (runPairs 0 (align_entries ceAuto ceGt).1).fp_global = 0 ∧
    (runPairs 1 (align_entries ceAuto ceGt).1).fp_global = 1 := by
  decide

/-- C1 amended: for a fixed pair and thresholds `t1 ≤ t2`, the extracted auto
and GT sets at `t2` are subsets of those at `t1` and the TP count at `t2` is
no greater than at `t1`; the FP and FN counts need not be monotone. -/
theorem C1_tp_monotone (pr : Entry × Entry) (t1 t2 : ℚ) (h : t1 ≤ t2) :
    (pairTPs pr t2).card ≤ (pairTPs pr t1).card ∧
    entryCodes pr.1 t2 ⊆ entryCodes pr.1 t1 ∧
    entryCodes pr.2 t2 ⊆ entryCodes pr.2 t1 := by
  have h1 : entryCodes pr.1 t2 ⊆ entryCodes pr.1 t1 := collect_codes_anti h
  have h2 : entryCodes pr.2 t2 ⊆ entryCodes pr.2 t1 := collect_codes_anti h
  exact ⟨Finset.card_le_card (Finset.inter_subset_inter h1 h2), h1, h2⟩

/-- Concrete instantiation of `C1_tp_monotone` on the counterexample pair. -/
theorem C1_tp_monotone_witness :
    (pairTPs (ceAutoEntry, ceGtEntry) 1).card ≤ (pairTPs (ceAutoEntry, ceGtEntry) 0).card ∧
    entryCodes ceAutoEntry 1 ⊆ entryCodes ceAutoEntry 0 ∧
    entryCodes ceGtEntry 1 ⊆ entryCodes ceGtEntry 0 :=
  C1_tp_monotone (ceAutoEntry, ceGtEntry) 0 1 (by decide)

/-! ### C3 and C10: alignment -/

/-- When the later part of an appended ground-truth list resolves the
identifier, the whole list resolves to the same entry (later writes win). -/
theorem gt_lookup_append_some {l' : List Entry} {i : Int} {g : Entry}
    (l : List Entry) (h : gt_lookup l' i = some g) :
    gt_lookup (l ++ l') i = some g := by
  induction l with
  | nil => exact h
  | cons e rest ih =>
    show (match gt_lookup (rest ++ l') i with
      | some g' => some g'
      | none => if e.id = i then some e else none) = some g
    rw [ih]

/-- When the later part of an appended ground-truth list does not resolve the
identifier, lookup falls back to the earlier part. -/
theorem gt_lookup_append_none {l' : List Entry} {i : Int}
    (l : List Entry) (h : gt_lookup l' i = none) :
    gt_lookup (l ++ l') i = gt_lookup l i := by
  induction l with
  | nil => exact h
  | cons e rest ih =>
    show (match gt_lookup (rest ++ l') i with
      | some g' => some g'
      | none => if e.id = i then some e else none) =
      (match gt_lookup rest i with
      | some g' => some g'
      | none => if e.id = i then some e else none)
    rw [ih]

/-- The lookup misses when no ground-truth entry has the identifier. -/
theorem gt_lookup_eq_none (l : List Entry) (i : Int) (h : ∀ e ∈ l, e.id ≠ i) :
    gt_lookup l i = none := by
  induction l with
  | nil => rfl
  | cons e rest ih =>
    simp only [gt_lookup, ih (fun e' he' => h e' (List.mem_cons_of_mem _ he'))]
    simp [h e (List.mem_cons_self _ _)]

/-- Closed form of the alignment loop: aligned pairs are the auto entries whose
identifier resolves in the ground truth (in auto order), and the skip counter
is the number of auto entries whose identifier does not resolve. -/
theorem align_answers_eq (gtA autoA : List Entry) :
    align_answers gtA autoA =
      (autoA.filterMap (fun a => (gt_lookup gtA a.id).map (fun g => (a, g))),
       (autoA.filter (fun a => (gt_lookup gtA a.id).isNone)).length) := by
  induction autoA with
  | nil => rfl
  | cons a rest ih =>
    cases h : gt_lookup gtA a.id <;>
      simp [align_answers, h, ih, List.filterMap_cons, List.filter_cons]

/-- The first components of the aligned pairs are exactly the auto entries
whose identifier resolves, in order and with multiplicity. -/
theorem align_answers_fst (gtA autoA : List Entry) :
    (align_answers gtA autoA).1.map Prod.fst =
      autoA.filter (fun a => (gt_lookup gtA a.id).isSome) := by
  induction autoA with
  | nil => rfl
  | cons a rest ih =>
    cases h : gt_lookup gtA a.id <;>
      simp [align_answers, h, ih, List.filter_cons]

/-- C3: alignment pairs each auto entry whose identifier resolves in the
ground truth with the found GT entry (a trimmed-text mismatch does not
exclude the pair), excludes each auto entry whose identifier does not
resolve and counts it in the skip counter, and preserves auto order. -/
theorem C3_alignment (auto gt : AnnotationSet) :
    ((align_entries auto gt).1 =
        auto.answers.filterMap
          (fun a => (gt_lookup gt.answers a.id).map (fun g => (a, g)))) ∧
    ((align_entries auto gt).2 =
        (auto.answers.filter (fun a => (gt_lookup gt.answers a.id).isNone)).length) ∧
    (∀ a g, a ∈ auto.answers → gt_lookup gt.answers a.id = some g → textMismatch a g →
        (a, g) ∈ (align_entries auto gt).1) ∧
    (∀ a, a ∈ auto.answers → gt_lookup gt.answers a.id = none →
        ∀ g, (a, g) ∉ (align_entries auto gt).1) ∧
    ((align_entries auto gt).1.map Prod.fst =
        auto.answers.filter (fun a => (gt_lookup gt.answers a.id).isSome)) := by
  have hpairs : (align_entries auto gt).1 =
      auto.answers.filterMap
        (fun a => (gt_lookup gt.answers a.id).map (fun g => (a, g))) := by
    rw [align_entries, align_answers_eq]
  refine ⟨hpairs, ?_, ?_, ?_, ?_⟩
  · rw [align_entries, align_answers_eq]
  · intro a g ha hg _
    rw [hpairs, List.mem_filterMap]
    exact ⟨a, ha, by rw [hg]; rfl⟩
  · intro a ha hnone g hmem
    rw [hpairs, List.mem_filterMap] at hmem
    obtain ⟨a', _, ha'⟩ := hmem
    cases h' : gt_lookup gt.answers a'.id with
    | none => rw [h'] at ha'; exact Option.noConfusion ha'
    | some g' =>
      rw [h'] at ha'
      have h1 : a' = a := congrArg Prod.fst (Option.some.inj ha')
      rw [h1, hnone] at h'
      exact Option.noConfusion h'
  · rw [align_entries, align_answers_fst]

/-- C10: the evaluator does not enforce identifier uniqueness: lookup returns
the last ground-truth entry carrying the identifier (later entries overwrite
earlier ones), and every occurrence of an auto entry whose identifier
resolves — duplicates included — produces its own aligned pair and is counted
in `evaluated_entries`. -/
theorem C10_duplicate_ids :
    (∀ (l1 l2 l3 : List Entry) (e1 e2 : Entry) (i : Int),
        e1.id = i → e2.id = i → (∀ e ∈ l3, e.id ≠ i) →
        gt_lookup (l1 ++ (e1 :: (l2 ++ (e2 :: l3)))) i = some e2) ∧
    (∀ (auto gt : AnnotationSet) (mc : ℚ),
        (evaluate_precision_recall auto gt mc).evaluated_entries =
          (auto.answers.filter (fun a => (gt_lookup gt.answers a.id).isSome)).length) := by
  constructor
  · intro l1 l2 l3 e1 e2 i h1 h2 h3
    have htail : gt_lookup (e2 :: l3) i = some e2 := by
      simp [gt_lookup, gt_lookup_eq_none l3 i h3, h2]
    have hmid : gt_lookup (l2 ++ e2 :: l3) i = some e2 :=
      gt_lookup_append_some l2 htail
    have hcons : gt_lookup (e1 :: (l2 ++ e2 :: l3)) i = some e2 := by
      show (match gt_lookup (l2 ++ e2 :: l3) i with
        | some g' => some g'
        | none => if e1.id = i then some e1 else none) = some e2
      rw [hmid]
    exact gt_lookup_append_some l1 hcons
  · intro auto gt mc
    show (align_entries auto gt).1.length = _
    rw [← align_answers_fst gt.answers auto.answers, List.length_map]
    rfl

/-- Concrete instantiation of `C10_duplicate_ids`: with two ground-truth
entries sharing identifier 1, the aligned pair uses the later one, and the
two auto occurrences of identifier 1 are both counted. -/
theorem C10_duplicate_ids_witness :
    gt_lookup ([] ++ ceGtEntry :: [] ++ ceAutoEntry :: []) 1 = some ceAutoEntry :=
  C10_duplicate_ids.1 [] [] [] ceGtEntry ceAutoEntry 1 rfl rfl (by decide)






/-- Concrete instantiation of `C3_alignment`: the text-mismatching entry is
still paired, and the entry with the unknown identifier is excluded. -/
theorem C3_alignment_witness :
    (c3AutoA, c3GtA) ∈ (align_entries c3Auto c3Gt).1 ∧
    (c3AutoB, c3GtA) ∉ (align_entries c3Auto c3Gt).1 :=
  ⟨(C3_alignment c3Auto c3Gt).2.2.1 c3AutoA c3GtA (by decide) (by decide)
      (show stripText c3AutoA.text ≠ stripText c3GtA.text by decide),
    (C3_alignment c3Auto c3Gt).2.2.2.1 c3AutoB (by decide) (by decide) c3GtA⟩

/-! ### Global counters as sums over the aligned pairs -/

/-- The TP accumulator after folding is the starting value plus the per-pair
TP cardinalities. -/
theorem foldl_tp_global (mc : ℚ) (pairs : List (Entry × Entry)) (st : EvalState) :
    (pairs.foldl (stepPair mc) st).tp_global =
      st.tp_global + (pairs.map (fun pr => (pairTPs pr mc).card)).sum := by
  induction pairs generalizing st with
  | nil => simp
  | cons pr rest ih =>
    rw [List.foldl_cons, ih, List.map_cons, List.sum_cons]
    show st.tp_global + (pairTPs pr mc).card + _ = _
    omega

/-- The FP accumulator after folding is the starting value plus the per-pair
FP cardinalities. -/
theorem foldl_fp_global (mc : ℚ) (pairs : List (Entry × Entry)) (st : EvalState) :
    (pairs.foldl (stepPair mc) st).fp_global =
      st.fp_global + (pairs.map (fun pr => (pairFPs pr mc).card)).sum := by
  induction pairs generalizing st with
  | nil => simp
  | cons pr rest ih =>
    rw [List.foldl_cons, ih, List.map_cons, List.sum_cons]
    show st.fp_global + (pairFPs pr mc).card + _ = _
    omega

/-- The FN accumulator after folding is the starting value plus the per-pair
FN cardinalities. -/
theorem foldl_fn_global (mc : ℚ) (pairs : List (Entry × Entry)) (st : EvalState) :
    (pairs.foldl (stepPair mc) st).fn_global =
      st.fn_global + (pairs.map (fun pr => (pairFNs pr mc).card)).sum := by
  induction pairs generalizing st with
  | nil => simp
  | cons pr rest ih =>
    rw [List.foldl_cons, ih, List.map_cons, List.sum_cons]
    show st.fn_global + (pairFNs pr mc).card + _ = _
    omega

/-! ### C7: per-pair count identities -/

/-- C7: for every aligned pair and every threshold, TP + FN equals the size
of the GT CodeTag set and TP + FP equals the size of the auto CodeTag set. -/
theorem C7_count_sizes (auto gt : AnnotationSet) (mc : ℚ) (pr : Entry × Entry)
    (h : pr ∈ (align_entries auto gt).1) :
    (pairTPs pr mc).card + (pairFNs pr mc).card = (entryCodes pr.2 mc).card ∧
    (pairTPs pr mc).card + (pairFPs pr mc).card = (entryCodes pr.1 mc).card := by
  constructor
  · rw [pairTPs, pairFNs, Finset.inter_comm]
    exact Finset.card_inter_add_card_sdiff _ _
  · rw [pairTPs, pairFPs]
    exact Finset.card_inter_add_card_sdiff _ _

/-- Concrete instantiation of `C7_count_sizes` on the aligned pair of the
C1 example documents at threshold 0. -/
theorem C7_count_sizes_witness :
    (pairTPs (ceAutoEntry, ceGtEntry) 0).card + (pairFNs (ceAutoEntry, ceGtEntry) 0).card =
      (entryCodes ceGtEntry 0).card ∧
    (pairTPs (ceAutoEntry, ceGtEntry) 0).card + (pairFPs (ceAutoEntry, ceGtEntry) 0).card =
      (entryCodes ceAutoEntry 0).card :=
  C7_count_sizes ceAuto ceGt 0 (ceAutoEntry, ceGtEntry) (by decide)

/-! ### C5: derived metrics and the zero-denominator convention -/

/-- C5: every bucket's derived metrics follow the spec formulas, with the
0-denominator convention resolving to 0 (the functions are total, so no
division error can be raised): the metric derivation satisfies the explicit
conditional formulas, and the report applies it to the global, per-theme and
per-code counters. -/
theorem C5_metric_formulas (auto gt : AnnotationSet) (mc : ℚ) :
    (∀ c : Counts,
      metricsOf c =
        ⟨if 0 < (c.tp : ℚ) + (c.fp : ℚ) then (c.tp : ℚ) / ((c.tp : ℚ) + (c.fp : ℚ)) else 0,
         if 0 < (c.tp : ℚ) + (c.fn : ℚ) then (c.tp : ℚ) / ((c.tp : ℚ) + (c.fn : ℚ)) else 0,
         if 0 < 2 * (c.tp : ℚ) + (c.fp : ℚ) + (c.fn : ℚ) then
           2 * (c.tp : ℚ) / (2 * (c.tp : ℚ) + (c.fp : ℚ) + (c.fn : ℚ)) else 0⟩) ∧
    ((evaluate_precision_recall auto gt mc).globalMetrics =
      metricsOf ⟨(runPairs mc (align_entries auto gt).1).tp_global,
                 (runPairs mc (align_entries auto gt).1).fp_global,
                 (runPairs mc (align_entries auto gt).1).fn_global⟩) ∧
    (∀ t : String, (evaluate_precision_recall auto gt mc).per_theme t =
      metricsOf ((runPairs mc (align_entries auto gt).1).per_theme t)) ∧
    (∀ p : String × String, (evaluate_precision_recall auto gt mc).per_code p =
      metricsOf ((runPairs mc (align_entries auto gt).1).per_code p)) := by
  refine ⟨fun c => ?_, rfl, fun t => rfl, fun p => rfl⟩
  simp only [metricsOf, safe_div, gt_iff_lt]

/-! ### C6: empty alignment -/

/-- C6: with zero aligned pairs the evaluator still returns a well-formed
report: global precision, recall and f1 are 0 and `evaluated_entries` is 0;
in particular an empty auto answer list or an empty ground-truth answer list
yields zero aligned pairs. -/
theorem C6_empty_alignment (auto gt : AnnotationSet) (mc : ℚ)
    (h : (align_entries auto gt).1 = []) :
    (evaluate_precision_recall auto gt mc).globalMetrics.precision = 0 ∧
    (evaluate_precision_recall auto gt mc).globalMetrics.recallScore = 0 ∧
    (evaluate_precision_recall auto gt mc).globalMetrics.f1 = 0 ∧
    (evaluate_precision_recall auto gt mc).evaluated_entries = 0 ∧
    (auto.answers = [] → (align_entries auto gt).1 = []) ∧
    (gt.answers = [] → (align_entries auto gt).1 = []) := by
  refine ⟨?_, ?_, ?_, ?_, ?_, ?_⟩
  · simp [evaluate_precision_recall, h, runPairs, initState, metricsOf, safe_div]
  · simp [evaluate_precision_recall, h, runPairs, initState, metricsOf, safe_div]
  · simp [evaluate_precision_recall, h, runPairs, initState, metricsOf, safe_div]
  · simp [evaluate_precision_recall, h]
  · intro ha
    rw [align_entries, ha]
    rfl
  · intro hg
    rw [align_entries, hg, align_answers_eq]
    simp [gt_lookup]

/-- Concrete instantiation of `C6_empty_alignment` on an empty auto document. -/
theorem C6_empty_alignment_witness :
    (evaluate_precision_recall ⟨"q", []⟩ ceGt 0).globalMetrics.precision = 0 ∧
    (evaluate_precision_recall ⟨"q", []⟩ ceGt 0).globalMetrics.recallScore = 0 ∧
    (evaluate_precision_recall ⟨"q", []⟩ ceGt 0).globalMetrics.f1 = 0 ∧
    (evaluate_precision_recall ⟨"q", []⟩ ceGt 0).evaluated_entries = 0 ∧
    ((⟨"q", []⟩ : AnnotationSet).answers = [] → (align_entries ⟨"q", []⟩ ceGt).1 = []) ∧
    (ceGt.answers = [] → (align_entries ⟨"q", []⟩ ceGt).1 = []) :=
  C6_empty_alignment ⟨"q", []⟩ ceGt 0 rfl

/-! ### C9: perfect agreement -/

/-- C9: when every aligned pair's auto CodeTag set equals its GT CodeTag set
at the chosen threshold and at least one CodeTag exists across the pairs,
the global precision, recall and f1 of the report are all 1 (in particular
this holds at every threshold that is at most the minimum confidence present,
where both sets contain all tags). -/
theorem C9_perfect_agreement (auto gt : AnnotationSet) (mc : ℚ)
    (heq : ∀ pr ∈ (align_entries auto gt).1, entryCodes pr.1 mc = entryCodes pr.2 mc)
    (hne : ∃ pr ∈ (align_entries auto gt).1, (entryCodes pr.1 mc).Nonempty) :
    (evaluate_precision_recall auto gt mc).globalMetrics.precision = 1 ∧
    (evaluate_precision_recall auto gt mc).globalMetrics.recallScore = 1 ∧
    (evaluate_precision_recall auto gt mc).globalMetrics.f1 = 1 := by
  have hfp : (runPairs mc (align_entries auto gt).1).fp_global = 0 := by
    rw [runPairs, foldl_fp_global]
    refine Nat.add_eq_zero.mpr ⟨rfl, List.sum_eq_zero ?_⟩
    intro x hx
    obtain ⟨pr, hpr, hxeq⟩ := List.mem_map.mp hx
    rw [← hxeq, pairFPs, heq pr hpr]
    simp
  have hfn : (runPairs mc (align_entries auto gt).1).fn_global = 0 := by
    rw [runPairs, foldl_fn_global]
    refine Nat.add_eq_zero.mpr ⟨rfl, List.sum_eq_zero ?_⟩
    intro x hx
    obtain ⟨pr, hpr, hxeq⟩ := List.mem_map.mp hx
    rw [← hxeq, pairFNs, heq pr hpr]
    simp
  have htp : 0 < (runPairs mc (align_entries auto gt).1).tp_global := by
    rw [runPairs, foldl_tp_global]
    obtain ⟨pr, hpr, hprne⟩ := hne
    have hcard : 0 < (pairTPs pr mc).card := by
      rw [pairTPs, heq pr hpr, Finset.inter_self, Finset.card_pos]
      rw [heq pr hpr] at hprne
      exact hprne
    have hmem : (pairTPs pr mc).card ∈
        ((align_entries auto gt).1.map (fun pr' => (pairTPs pr' mc).card)) :=
      List.mem_map_of_mem _ hpr
    have hle := List.single_le_sum (l := (align_entries auto gt).1.map
      (fun pr' => (pairTPs pr' mc).card)) (fun x _ => Nat.zero_le x) _ hmem
    omega
  have hT : (0 : ℚ) < ((runPairs mc (align_entries auto gt).1).tp_global : ℚ) := by
    exact_mod_cast htp
  have hrep : (evaluate_precision_recall auto gt mc).globalMetrics =
      metricsOf ⟨(runPairs mc (align_entries auto gt).1).tp_global,
                 (runPairs mc (align_entries auto gt).1).fp_global,
                 (runPairs mc (align_entries auto gt).1).fn_global⟩ := rfl
  rw [hrep, hfp, hfn]
  refine ⟨?_, ?_, ?_⟩
  · show safe_div _ _ = 1
    rw [safe_div, if_pos (by simpa using hT)]
    simp [div_self (ne_of_gt hT)]
  · show safe_div _ _ = 1
    rw [safe_div, if_pos (by simpa using hT)]
    simp [div_self (ne_of_gt hT)]
  · show safe_div _ _ = 1
    rw [safe_div, if_pos (by positivity)]
    rw [Nat.cast_zero, add_zero, add_zero, div_self (by positivity)]

/-- Concrete instantiation of `C9_perfect_agreement`: evaluating the C1
ground-truth document against itself at threshold 0 yields perfect metrics. -/
theorem C9_perfect_agreement_witness :
    (evaluate_precision_recall ceGt ceGt 0).globalMetrics.precision = 1 ∧
    (evaluate_precision_recall ceGt ceGt 0).globalMetrics.recallScore = 1 ∧
    (evaluate_precision_recall ceGt ceGt 0).globalMetrics.f1 = 1 :=
  C9_perfect_agreement ceGt ceGt 0 (by decide) (by decide)

/-! ### C8: per-theme counters partition the global counters -/


/-- The pair step preserves the theme-partition invariant. -/
theorem themePartitionInv_step (mc : ℚ) (st : EvalState) (pr : Entry × Entry)
    (h : themePartitionInv st) : themePartitionInv (stepPair mc st pr) := by
  obtain ⟨hz, htp, hfp, hfn⟩ := h
  have subT : pairTPs pr mc ⊆ pairTPs pr mc ∪ pairFPs pr mc ∪ pairFNs pr mc :=
    fun p hp => Finset.mem_union_left _ (Finset.mem_union_left _ hp)
  have subF : pairFPs pr mc ⊆ pairTPs pr mc ∪ pairFPs pr mc ∪ pairFNs pr mc :=
    fun p hp => Finset.mem_union_left _ (Finset.mem_union_right _ hp)
  have subN : pairFNs pr mc ⊆ pairTPs pr mc ∪ pairFPs pr mc ∪ pairFNs pr mc :=
    fun p hp => Finset.mem_union_right _ hp
  have hsum : ∀ S : Finset (String × String),
      S ⊆ pairTPs pr mc ∪ pairFPs pr mc ∪ pairFNs pr mc →
      ∑ t ∈ (stepPair mc st pr).theme_keys, (S.filter (fun p => p.1 = t)).card = S.card := by
    intro S hS
    refine (Finset.card_eq_sum_card_fiberwise ?_).symm
    intro p hp
    exact Finset.mem_union_right _ (Finset.mem_image_of_mem _ (hS hp))
  have hold : ∀ f : Counts → ℕ, f Counts.zero = 0 →
      ∑ t ∈ (stepPair mc st pr).theme_keys, f (st.per_theme t) =
        ∑ t ∈ st.theme_keys, f (st.per_theme t) := by
    intro f hf
    refine (Finset.sum_subset Finset.subset_union_left ?_).symm
    intro x _ hx
    rw [hz x hx, hf]
  refine ⟨?_, ?_, ?_, ?_⟩
  · intro t ht
    have htK : t ∉ st.theme_keys := fun hK => ht (Finset.mem_union_left _ hK)
    have htI : t ∉ (pairTPs pr mc ∪ pairFPs pr mc ∪ pairFNs pr mc).image Prod.fst :=
      fun hI => ht (Finset.mem_union_right _ hI)
    have hfil : ∀ S : Finset (String × String),
        S ⊆ pairTPs pr mc ∪ pairFPs pr mc ∪ pairFNs pr mc →
        (S.filter (fun p => p.1 = t)).card = 0 := by
      intro S hS
      rw [Finset.card_eq_zero, Finset.filter_eq_empty_iff]
      intro p hp hpt
      exact htI (hpt ▸ Finset.mem_image_of_mem _ (hS hp))
    show (⟨(st.per_theme t).tp + ((pairTPs pr mc).filter (fun p => p.1 = t)).card,
           (st.per_theme t).fp + ((pairFPs pr mc).filter (fun p => p.1 = t)).card,
           (st.per_theme t).fn + ((pairFNs pr mc).filter (fun p => p.1 = t)).card⟩ : Counts) =
        Counts.zero
    rw [hz t htK, hfil _ subT, hfil _ subF, hfil _ subN]
    rfl
  · show st.tp_global + (pairTPs pr mc).card =
      ∑ t ∈ (stepPair mc st pr).theme_keys,
        ((st.per_theme t).tp + ((pairTPs pr mc).filter (fun p => p.1 = t)).card)
    rw [Finset.sum_add_distrib, hold (fun c => c.tp) rfl, hsum _ subT, htp]
  · show st.fp_global + (pairFPs pr mc).card =
      ∑ t ∈ (stepPair mc st pr).theme_keys,
        ((st.per_theme t).fp + ((pairFPs pr mc).filter (fun p => p.1 = t)).card)
    rw [Finset.sum_add_distrib, hold (fun c => c.fp) rfl, hsum _ subF, hfp]
  · show st.fn_global + (pairFNs pr mc).card =
      ∑ t ∈ (stepPair mc st pr).theme_keys,
        ((st.per_theme t).fn + ((pairFNs pr mc).filter (fun p => p.1 = t)).card)
    rw [Finset.sum_add_distrib, hold (fun c => c.fn) rfl, hsum _ subN, hfn]

/-- Folding the pair step preserves the theme-partition invariant. -/
theorem themePartitionInv_foldl (mc : ℚ) (pairs : List (Entry × Entry)) (st : EvalState)
    (h : themePartitionInv st) : themePartitionInv (pairs.foldl (stepPair mc) st) := by
  induction pairs generalizing st with
  | nil => exact h
  | cons pr rest ih => exact ih _ (themePartitionInv_step mc st pr h)

/-- C8: after evaluation the global TP, FP and FN counters each equal the sum
of the corresponding per-theme counters over the touched themes. -/
theorem C8_theme_partition (auto gt : AnnotationSet) (mc : ℚ) :
    (runPairs mc (align_entries auto gt).1).tp_global =
      ∑ t ∈ (runPairs mc (align_entries auto gt).1).theme_keys,
        ((runPairs mc (align_entries auto gt).1).per_theme t).tp ∧
    (runPairs mc (align_entries auto gt).1).fp_global =
      ∑ t ∈ (runPairs mc (align_entries auto gt).1).theme_keys,
        ((runPairs mc (align_entries auto gt).1).per_theme t).fp ∧
    (runPairs mc (align_entries auto gt).1).fn_global =
      ∑ t ∈ (runPairs mc (align_entries auto gt).1).theme_keys,
        ((runPairs mc (align_entries auto gt).1).per_theme t).fn := by
  have hinit : themePartitionInv initState := by
    refine ⟨fun t _ => rfl, ?_, ?_, ?_⟩ <;> simp [initState]
  have h := themePartitionInv_foldl mc (align_entries auto gt).1 initState hinit
  exact ⟨h.2.1, h.2.2.1, h.2.2.2⟩

/-! ### C2: per-code key serialization -/



/-- C2 counterexample: two distinct `(theme, code)` pairs both appear in the
per-code counters of this evaluation yet serialize to the same string
`"a|b|c"`, so the serialization is not collision-free on all distinct pairs. -/
theorem C2_counterexample :
    ("a|b", "c") ∈ (evaluate_precision_recall c2Set c2Set 1).code_keys ∧
    ("a", "b|c") ∈ (evaluate_precision_recall c2Set c2Set 1).code_keys ∧
    (("a|b", "c") : String × String) ≠ ("a", "b|c") ∧
    serializeCodeKey ("a|b", "c") = serializeCodeKey ("a", "b|c") := by
  decide

/-- Splitting a character list at a separator absent from both prefixes is
unambiguous. -/
theorem sep_split_unique (l1 : List Char) :
    ∀ (l2 r1 r2 : List Char), '|' ∉ l1 → '|' ∉ l2 →
      l1 ++ '|' :: r1 = l2 ++ '|' :: r2 → l1 = l2 ∧ r1 = r2 := by
  induction l1 with
  | nil =>
    intro l2 r1 r2 _ h2 h
    cases l2 with
    | nil => simpa using h
    | cons b bs =>
      rw [List.nil_append, List.cons_append] at h
      injection h with hb _
      exact absurd (by rw [← hb]; exact List.mem_cons_self _ _ : '|' ∈ b :: bs) h2
  | cons a as ih =>
    intro l2 r1 r2 h1 h2 h
    cases l2 with
    | nil =>
      rw [List.nil_append, List.cons_append] at h
      injection h with ha _
      exact absurd (by rw [ha]; exact List.mem_cons_self _ _ : '|' ∈ a :: as) h1
    | cons b bs =>
      rw [List.cons_append, List.cons_append] at h
      injection h with hab hrest
      obtain ⟨hl, hr⟩ := ih bs r1 r2
        (fun hm => h1 (List.mem_cons_of_mem _ hm))
        (fun hm => h2 (List.mem_cons_of_mem _ hm)) hrest
      exact ⟨by rw [hab, hl], hr⟩

/-- The `"theme|code"` serialization is injective on pairs whose theme does
not contain the separator character. -/
theorem serializeCodeKey_inj (t1 c1 t2 c2 : String)
    (h1 : '|' ∉ t1.data) (h2 : '|' ∉ t2.data)
    (h : serializeCodeKey (t1, c1) = serializeCodeKey (t2, c2)) :
    t1 = t2 ∧ c1 = c2 := by
  have h' : ((t1 ++ "|") ++ c1).data = ((t2 ++ "|") ++ c2).data :=
    congrArg String.data h
  rw [String.data_append, String.data_append, String.data_append,
    String.data_append] at h'
  have hd : t1.data ++ '|' :: c1.data = t2.data ++ '|' :: c2.data := by
    simpa [List.append_assoc] using h'
  obtain ⟨ht, hc⟩ := sep_split_unique t1.data t2.data c1.data c2.data h1 h2 hd
  exact ⟨String.ext ht, String.ext hc⟩

/-- C2 amended: serialization is the deterministic function
`theme ++ "|" ++ code`, and it is collision-free on every two distinct pairs
of the per-code counters whose theme components do not contain the separator
character; with a separator inside a theme name collisions are possible
(see the counterexample). -/
theorem C2_serialization_separator_free (auto gt : AnnotationSet) (mc : ℚ)
    (p q : String × String)
    (hp : p ∈ (evaluate_precision_recall auto gt mc).code_keys)
    (hq : q ∈ (evaluate_precision_recall auto gt mc).code_keys)
    (hpf : '|' ∉ p.1.data) (hqf : '|' ∉ q.1.data) (hne : p ≠ q) :
    serializeCodeKey p ≠ serializeCodeKey q := by
  intro heq
  apply hne
  obtain ⟨h1, h2⟩ := serializeCodeKey_inj p.1 p.2 q.1 q.2 hpf hqf heq
  exact Prod.ext h1 h2



/-- Concrete instantiation of `C2_serialization_separator_free` on two
separator-free keys of an actual evaluation. -/
theorem C2_serialization_separator_free_witness :
    serializeCodeKey ("A", "c") ≠ serializeCodeKey ("A", "d") :=
  C2_serialization_separator_free c2wSet c2wSet 1 ("A", "c") ("A", "d")
    (by decide) (by decide) (by decide) (by decide) (by decide)
